import Mathlib

/-
Verification of the TEDD1104 dataset pipeline (dataset.py).

An image tensor of shape (C, H, W) is embedded as a function
Fin C → Fin H → Fin W → ℚ; pixel values, probabilities and random draws
are rationals.  torch.rand draws are explicit parameters in [0, 1).
Operations that can raise in Python (shape-mismatch slice assignment,
indexing None) return Option.
-/

/-- A (C, H, W) tensor of rational pixel values. -/
def Img (C H W : Nat) : Type := Fin C → Fin H → Fin W → ℚ

namespace Img

/-- Column slice image[:, :, lo : lo + len] (in-bounds form). -/
def sliceCols {C H W : Nat} (img : Img C H W) (lo len : Nat)
    (h : lo + len ≤ W) : Img C H len :=
  fun c r x => img c r ⟨lo + x.1, by omega⟩

/-- Crop an image to its first n columns. -/
def cropCols {C H W : Nat} (img : Img C H W) (n : Nat) (h : n ≤ W) :
    Img C H n :=
  fun c r x => img c r ⟨x.1, by omega⟩

/-- Horizontal concatenation of 5 equal-width images, as produced by
torch.cat along the width axis: column x of the result reads frame
x / W at column x % W. -/
def hcat5 {C H W : Nat} (f : Fin 5 → Img C H W) : Img C H (5 * W) :=
  fun c r x =>
    have hW : 0 < W := by
      rcases Nat.eq_zero_or_pos W with h0 | h0
      · exact absurd x.isLt (by omega)
      · exact h0
    f ⟨x.1 / W, by
        have := x.isLt
        exact Nat.div_lt_of_lt_mul (by omega)⟩
      c r ⟨x.1 % W, Nat.mod_lt _ hW⟩

end Img

/-- SplitImages.__call__ (dataset.py lines 90-104): width = size(2) / 5;
image_k = image[:, :, (k-1)*width : k*width] for k = 1..5; returns
(torch.stack([image1, ..., image5]), torch.tensor(y)).  The stack is the
function sending j to the j-th slice, and torch.tensor preserves the
label value.  The embedded bound says slice j ends at column
(j + 1) * (W / 5) ≤ W. -/
def splitImages {H W : Nat} (sample : Img 3 H W × ℚ) :
    (Fin 5 → Img 3 H (W / 5)) × ℚ :=
  (fun j => Img.sliceCols sample.1 (j.1 * (W / 5)) (W / 5)
      (calc j.1 * (W / 5) + W / 5 = (j.1 + 1) * (W / 5) := by ring
        _ ≤ 5 * (W / 5) := Nat.mul_le_mul_right _ j.isLt
        _ ≤ W := Nat.mul_div_le W 5),
   sample.2)

/-! RemoveMinimap (dataset.py lines 29-48).  The stage draws one random
number; when 0 < hide_map_prob and the draw is at most hide_map_prob it
performs, for j = 0..4, the slice assignment
image[:, 215:, j*width : j*width + 80] = torch.zeros((3, 55, 80))
with width = size(2) / 5.  Each assignment succeeds exactly when the
target slice has shape (3, 55, 80); it writes through the tensor passed
by the caller.  The loop is embedded as a fold over an (image, ok) pair:
the image component is the content of the caller's tensor so far, the
Boolean records whether an assignment has raised. -/

/-- Writes zeros into rows r0 onward and columns [c0, c0 + cw) of an
image, the effect of a zero slice assignment. -/
def zeroRect {C H W : Nat} (r0 c0 cw : Nat) (img : Img C H W) : Img C H W :=
  fun c r x => if r0 ≤ r.1 ∧ c0 ≤ x.1 ∧ x.1 < c0 + cw then 0 else img c r x

/-- The slice image[:, 215:, c0 : c0 + 80] of a (3, H, W) tensor has
shape (3, 55, 80), so assigning torch.zeros((3, 55, 80)) to it succeeds. -/
def minimapAssignOk (H W c0 : Nat) : Prop :=
  H - 215 = 55 ∧ min (c0 + 80) W - min c0 W = 80

instance (H W c0 : Nat) : Decidable (minimapAssignOk H W c0) :=
  instDecidableAnd

/-- One iteration of the j-loop of RemoveMinimap.__call__: skipped when a
previous assignment already raised. -/
def minimapStep {H W : Nat} (w : Nat) (st : Img 3 H W × Bool) (j : Nat) :
    Img 3 H W × Bool :=
  if st.2 then
    if minimapAssignOk H W (j * w) then (zeroRect 215 (j * w) 80 st.1, true)
    else (st.1, false)
  else st

/-- The full j = 0..4 loop of RemoveMinimap.__call__. -/
def minimapLoop {H W : Nat} (img : Img 3 H W) : Img 3 H W × Bool :=
  (List.range 5).foldl (minimapStep (W / 5)) (img, true)

/-- Content of the caller's image tensor after RemoveMinimap.__call__
returns or raises: the slice assignments write in place, so the tensor
holds every zeroed rectangle written before a failure. -/
def removeMinimapAfter {H W : Nat} (p rnd : ℚ) (img : Img 3 H W) :
    Img 3 H W :=
  if 0 < p ∧ rnd ≤ p then (minimapLoop img).1 else img

/-- Result of RemoveMinimap.__call__ on the image component: none when a
slice assignment raises a shape mismatch. -/
def removeMinimapRun {H W : Nat} (p rnd : ℚ) (img : Img 3 H W) :
    Option (Img 3 H W) :=
  if 0 < p ∧ rnd ≤ p then
    if (minimapLoop img).2 then some (minimapLoop img).1 else none
  else some img

/-- RemoveMinimap.__call__ on a (image, label) sample; the label is
passed through untouched. -/
def removeMinimapCall {H W : Nat} (p rnd : ℚ) (s : Img 3 H W × ℚ) :
    Option (Img 3 H W × ℚ) :=
  (removeMinimapRun p rnd s.1).map fun im => (im, s.2)

/-- The minimap region covered by the first n loop iterations: rows 215
onward, columns [j * w, j * w + 80) for j < n. -/
def zeroMinimapUpTo {C H W : Nat} (w n : Nat) (img : Img C H W) :
    Img C H W :=
  fun c r x =>
    if 215 ≤ r.1 ∧ ((List.range n).any fun j =>
        decide (j * w ≤ x.1 ∧ x.1 < j * w + 80)) then 0
    else img c r x

/-- The full minimap region: rows 215 onward, the 80 columns starting at
each of the 5 one-fifth-width segment boundaries. -/
def zeroMinimapAll {H W : Nat} (img : Img 3 H W) : Img 3 H W :=
  zeroMinimapUpTo (W / 5) 5 img

/-- Concrete 3 x 270 x 400 image, every pixel 1. -/
def exImg270 : Img 3 270 400 := fun _ _ _ => 1

/-- Concrete 3 x 270 x 399 image, every pixel 1; its one-fifth segment
width is 399 / 5 = 79. -/
def exImg399 : Img 3 270 399 := fun _ _ _ => 1

/-! RemoveImage (dataset.py lines 64-82).  For each j = 0..4 the stage
reads self.dropout_images_prob[j]; when that entry is positive it draws
a random number, and when the draw is at most the entry it performs the
slice assignment
image[:, :, j*width : (j+1)*width] = torch.zeros((C, H, width))
with width = size(2) / 5.  The zeros tensor is built from the shape of
the image itself, so the assignment always matches and writes through
the tensor passed by the caller; the only failure mode is indexing the
probability container (None, or a list shorter than 5). -/

/-- One iteration of the j-loop of RemoveImage.__call__.  The draw for
slot j is the explicit parameter d j. -/
def imageStep {C H W : Nat} (ps : List ℚ) (d : Nat → ℚ) (w : Nat)
    (st : Img C H W × Bool) (j : Nat) : Img C H W × Bool :=
  if st.2 then
    match ps[j]? with
    | none => (st.1, false)
    | some p =>
        if 0 < p ∧ d j ≤ p then (zeroRect 0 (j * w) w st.1, true)
        else (st.1, true)
  else st

/-- The full j = 0..4 loop of RemoveImage.__call__. -/
def imageLoop {C H W : Nat} (ps : List ℚ) (d : Nat → ℚ) (img : Img C H W) :
    Img C H W × Bool :=
  (List.range 5).foldl (imageStep ps d (W / 5)) (img, true)

/-- Content of the caller's image tensor after RemoveImage.__call__
returns or raises: the slice assignments write in place.  With a None
probability container the indexing raises before any write. -/
def removeImageAfter {C H W : Nat} (probs : Option (List ℚ)) (d : Nat → ℚ)
    (img : Img C H W) : Img C H W :=
  match probs with
  | none => img
  | some ps => (imageLoop ps d img).1

/-- Result of RemoveImage.__call__ on the image component: none when
indexing the probability container raises. -/
def removeImageRun {C H W : Nat} (probs : Option (List ℚ)) (d : Nat → ℚ)
    (img : Img C H W) : Option (Img C H W) :=
  match probs with
  | none => none
  | some ps =>
      if (imageLoop ps d img).2 then some (imageLoop ps d img).1 else none

/-- RemoveImage.__call__ on a (image, label) sample; the label is passed
through untouched. -/
def removeImageCall {C H W : Nat} (probs : Option (List ℚ)) (d : Nat → ℚ)
    (s : Img C H W × ℚ) : Option (Img C H W × ℚ) :=
  (removeImageRun probs d s.1).map fun im => (im, s.2)

/-- Dropout trigger for slot j: the probability entry of slot j is
positive and the draw for slot j is at most that entry. -/
def dropTrig (ps : List ℚ) (d : Nat → ℚ) (j : Nat) : Prop :=
  0 < ps.getD j 0 ∧ d j ≤ ps.getD j 0

instance (ps : List ℚ) (d : Nat → ℚ) (j : Nat) :
    Decidable (dropTrig ps d j) := instDecidableAnd

/-- The region dropped by the first n slots: the full-height width
segment [j * w, (j + 1) * w) of every triggered slot j < n. -/
def zeroDroppedUpTo {C H W : Nat} (ps : List ℚ) (d : Nat → ℚ) (w n : Nat)
    (img : Img C H W) : Img C H W :=
  fun c r x =>
    if ((List.range n).any fun j =>
        decide (dropTrig ps d j ∧ j * w ≤ x.1 ∧ x.1 < j * w + w)) then 0
    else img c r x

/-- The image with every triggered slot of the 5 width segments zeroed
and every other column unchanged. -/
def zeroDropped {C H W : Nat} (ps : List ℚ) (d : Nat → ℚ)
    (img : Img C H W) : Img C H W :=
  zeroDroppedUpTo ps d (W / 5) 5 img

/-- Concrete 1 x 1 x 5 image, every pixel 1. -/
def exImgSmall : Img 1 1 5 := fun _ _ _ => 1

/-! SequenceColorJitter (dataset.py lines 107-134).  The stage wraps
torchvision ColorJitter; the perturbation it samples is passed here as
the already-drawn function jitter.  Its call rebinds the local name to
the new tensor ColorJitter returns and never writes into its argument. -/

/-- Modelled from the spec: ColorJitter (torchvision, outside this
repository) samples one brightness/contrast/saturation/hue perturbation
shared by the whole stack and returns a new tensor; the sampled
perturbation is the parameter jitter.  SequenceColorJitter.__call__
returns (jitter images, y). -/
def sequenceColorJitterCall {H W : Nat}
    (jitter : (Fin 5 → Img 3 H W) → Fin 5 → Img 3 H W)
    (s : (Fin 5 → Img 3 H W) × ℚ) : (Fin 5 → Img 3 H W) × ℚ :=
  (jitter s.1, s.2)

/-- Content of the caller's stacked tensor after SequenceColorJitter
returns: the call only rebinds a local variable, so the argument is
untouched. -/
def sequenceColorJitterAfter {H W : Nat}
    (_jitter : (Fin 5 → Img 3 H W) → Fin 5 → Img 3 H W)
    (s : (Fin 5 → Img 3 H W) × ℚ) : Fin 5 → Img 3 H W :=
  s.1

instance {C H W : Nat} : DecidableEq (Img C H W) := by
  unfold Img; infer_instance

/-! Normalize (dataset.py lines 137-166). -/

/-- Channel means of transforms.Normalize (dataset.py lines 142-144). -/
def channelMean : Fin 3 → ℚ := fun c =>
  if c.1 = 0 then 485 / 1000 else if c.1 = 1 then 456 / 1000 else 406 / 1000

/-- Channel standard deviations of transforms.Normalize (dataset.py
lines 142-144). -/
def channelStd : Fin 3 → ℚ := fun c =>
  if c.1 = 0 then 229 / 1000 else if c.1 = 1 then 224 / 1000 else 225 / 1000

/-- Effect of transforms.Normalize(mean, std) on one frame already
divided by 255: channelwise (v / 255 - mean_c) / std_c (the torchvision
transform subtracts the channel mean and divides by the channel std). -/
def normalizeFrame {H W : Nat} (f : Img 3 H W) : Img 3 H W :=
  fun c r x => (f c r x / 255 - channelMean c) / channelStd c

/-- Normalize.__call__ (dataset.py lines 146-166): builds a fresh stack
whose entry i is transform(images[i] / 255.0); the label passes
through. -/
def normalizeCall {H W : Nat} (s : (Fin 5 → Img 3 H W) × ℚ) :
    (Fin 5 → Img 3 H W) × ℚ :=
  (fun i => normalizeFrame (s.1 i), s.2)

/-! collate_fn (dataset.py lines 169-184). -/

/-- A tensor with leading dimension data.length and a requires_grad
flag. -/
structure MTensor (α : Type) where
  data : List α
  requiresGrad : Bool

/-- The dict returned by collate_fn: keys images, attention_mask, y. -/
structure CollatedBatch (F M L : Type) where
  images : MTensor F
  attention_mask : MTensor M
  y : MTensor (List L)

/-- collate_fn: torch.cat of the per-sample image stacks along dim 0
(order-preserving flatten; the result requires grad when any input
does), torch.cat of the masks, torch.stack of the labels along a new
leading axis, then requires_grad of attention_mask and y assigned
False. -/
def collate_fn {F M L : Type}
    (batch : List (MTensor F × MTensor M × MTensor L)) :
    CollatedBatch F M L :=
  { images := ⟨(batch.map fun b => b.1.data).flatten,
      batch.any fun b => b.1.requiresGrad⟩
    attention_mask := ⟨(batch.map fun b => b.2.1.data).flatten, false⟩
    y := ⟨batch.map fun b => b.2.2.data, false⟩ }

/-- Concrete one-sample batch, 5 frames of zeros. -/
def exBatch : List (MTensor Nat × MTensor Nat × MTensor Nat) :=
  [(⟨[0, 0, 0, 0, 0], false⟩, ⟨[1], false⟩, ⟨[2], false⟩)]

/-! Tedd1104Dataset (dataset.py lines 191-329).  The collaborators that
are outside the snapshot — torchvision.io.read_image and
IOHandler.imagename_input_conversion from utils.py — are the function
parameters read and decode; get_mask from utils.py is modelled from the
spec below. -/

/-- Python str.lower as a map over the characters of the string
(dataset.py line 224 lower-cases the control mode). -/
def pyLower (s : String) : String := ⟨s.data.map Char.toLower⟩

/-- The state stored by Tedd1104Dataset.__init__: the defaulted dropout
vector kept on self, and separately the raw constructor argument, which
line 260 hands to the RemoveImage stage of the training transform. -/
structure TeddConfig where
  hideMapProb : ℚ
  tokenMaskProb : ℚ
  nheads : Option Nat
  rawDropout : Option (List ℚ)
  storedDropout : List ℚ
  seqLen : Nat
  controlMode : String
  train : Bool
deriving DecidableEq

/-- Python truthiness of the dropout_images_prob argument (line 221):
None and the empty list are falsy, so both are replaced by
[0.0] * sequence_length. -/
def effectiveDropout (raw : Option (List ℚ)) (seqLen : Nat) : List ℚ :=
  match raw with
  | none => List.replicate seqLen 0
  | some l => if l = [] then List.replicate seqLen 0 else l

/-- Tedd1104Dataset.__init__ (dataset.py lines 194-279): stores the
lower-cased control mode and defaulted dropout vector, then asserts that
the control mode is keyboard or controller, 0 ≤ hide_map_prob ≤ 1, the
stored dropout vector has length 5 and every entry in [0, 1), and
0 ≤ token_mask_prob < 1.  none models a failed assert. -/
def teddInit (hideMapProb tokenMaskProb : ℚ) (nheads : Option Nat)
    (rawDropout : Option (List ℚ)) (seqLen : Nat) (controlMode : String)
    (train : Bool) : Option TeddConfig :=
  let mode := pyLower controlMode
  let stored := effectiveDropout rawDropout seqLen
  if (mode = "keyboard" ∨ mode = "controller") ∧
      (0 ≤ hideMapProb ∧ hideMapProb ≤ 1) ∧
      stored.length = 5 ∧
      (∀ p ∈ stored, 0 ≤ p ∧ p < 1) ∧
      (0 ≤ tokenMaskProb ∧ tokenMaskProb < 1) then
    some ⟨hideMapProb, tokenMaskProb, nheads, rawDropout, stored, seqLen,
      mode, train⟩
  else none

/-- Modelled from the spec: get_mask from utils.py is not in the
snapshot.  Per the Mask Generator contract, with no head count supplied,
outside training, or with token_mask_prob = 0 it yields a
full-visibility mask; otherwise each of the sequence_length positions is
masked independently, position j exactly when its draw is at most the
probability. -/
def get_mask (train : Bool) (nheads : Option Nat) (maskProb : ℚ)
    (seqLen : Nat) (draws : Nat → ℚ) : List Bool :=
  if nheads = none ∨ train = false ∨ maskProb = 0 then
    List.replicate seqLen false
  else (List.range seqLen).map fun j => decide (draws j ≤ maskProb)

/-- Index of the random fallback file, int(len(files) * torch.rand(1))
(dataset.py lines 311-313). -/
def fallbackIndex (n : Nat) (d : ℚ) : Nat := (⌊(n : ℚ) * d⌋).toNat

/-- The read-retry loop of __getitem__ (dataset.py lines 300-313),
driven by the list of fallback draws still available: a failed read is
logged, never propagated, and retried with the file at the random
fallback index; only a successfully read file is returned, with its
name.  none means the supplied draws were exhausted, a finite prefix of
the unbounded loop. -/
def fetchImage {H W : Nat} (files : List String)
    (read : String → Option (Img 3 H W)) :
    String → List ℚ → Option (String × Img 3 H W)
  | nm, [] => (read nm).map fun im => (nm, im)
  | nm, d :: ds =>
    match read nm with
    | some im => some (nm, im)
    | none =>
        fetchImage files read (files.getD (fallbackIndex files.length d) "")
          ds

/-- The transforms.Compose assembled in __init__ (dataset.py lines
256-275): RemoveMinimap, RemoveImage, SplitImages, SequenceColorJitter,
Normalize when training; only SplitImages and Normalize otherwise.  The
RemoveImage stage holds the raw constructor argument rawDropout. -/
def applyTransform {H W : Nat} (cfg : TeddConfig)
    (jitter : (Fin 5 → Img 3 H (W / 5)) → Fin 5 → Img 3 H (W / 5))
    (rMap : ℚ) (dDrop : Nat → ℚ) (img : Img 3 H W) (y : ℚ) :
    Option ((Fin 5 → Img 3 H (W / 5)) × ℚ) :=
  if cfg.train then
    (removeMinimapRun cfg.hideMapProb rMap img).bind fun im1 =>
      (removeImageRun cfg.rawDropout dDrop im1).map fun im2 =>
        normalizeCall (sequenceColorJitterCall jitter (splitImages (im2, y)))
  else
    some (normalizeCall (splitImages (img, y)))

/-- Tedd1104Dataset.__getitem__ (dataset.py lines 289-329): resolve the
file name by index, run the read-retry loop, decode the label from the
name of the file actually read (img_name is rebound on every retry
before IOHandler.imagename_input_conversion runs), apply the transform,
attach the mask. -/
def getItem {H W : Nat} (cfg : TeddConfig) (files : List String)
    (read : String → Option (Img 3 H W)) (decode : String → String → ℚ)
    (jitter : (Fin 5 → Img 3 H (W / 5)) → Fin 5 → Img 3 H (W / 5))
    (rMap : ℚ) (dDrop dMask : Nat → ℚ) (idx : Nat) (draws : List ℚ) :
    Option ((Fin 5 → Img 3 H (W / 5)) × List Bool × ℚ) :=
  (fetchImage files read (files.getD idx "") draws).bind fun nmim =>
    (applyTransform cfg jitter rMap dDrop nmim.2
        (decode nmim.1 cfg.controlMode)).map fun st =>
      (st.1,
       get_mask cfg.train cfg.nheads cfg.tokenMaskProb cfg.seqLen dMask,
       st.2)

/-- Degenerate 3 x 0 x 0 image. -/
def exImg00 : Img 3 0 0 := fun _ _ _ => 0

/-- A two-file split whose first file is unreadable. -/
def exFiles : List String := ["bad.jpeg", "good.jpeg"]

/-- A reader that succeeds only on the second file. -/
def exRead : String → Option (Img 3 0 0) := fun s =>
  if s = "good.jpeg" then some exImg00 else none

/-- An evaluation-split configuration. -/
def exCfg : TeddConfig :=
  ⟨0, 0, none, none, List.replicate 5 0, 5, "keyboard", false⟩

/-- A training configuration with the dropout default. -/
def exCfgTrain : TeddConfig :=
  ⟨0, 0, none, none, List.replicate 5 0, 5, "keyboard", true⟩

/-- C1.  SplitImages on a (3, H, W) image returns the label unchanged
and a stack of exactly 5 frames (the Fin 5 index), each of shape
(3, H, W / 5) (the Img type), and concatenating the 5 frames along the
width axis reproduces the input cropped to its first 5 * (W / 5)
columns.  Instantiating W := 5 * W0 gives the claim for exact widths. -/
theorem splitImages_spec (H W : Nat) (img : Img 3 H W) (y : ℚ) :
    (splitImages (img, y)).2 = y ∧
    Img.hcat5 (splitImages (img, y)).1 =
      Img.cropCols img (5 * (W / 5)) (Nat.mul_div_le W 5) := by
  refine ⟨rfl, ?_⟩
  funext c r x
  have hW : 0 < W / 5 := by
    rcases Nat.eq_zero_or_pos (W / 5) with h0 | h0
    · exact absurd x.isLt (by omega)
    · exact h0
  show img c r _ = img c r _
  congr 1
  apply Fin.ext
  show x.1 / (W / 5) * (W / 5) + x.1 % (W / 5) = x.1
  exact Nat.div_add_mod' x.1 (W / 5)

theorem zeroRect_upTo_succ {C H W : Nat} (w n : Nat) (img : Img C H W) :
    zeroRect 215 (n * w) 80 (zeroMinimapUpTo w n img) =
      zeroMinimapUpTo w (n + 1) img := by
  funext c r x
  simp only [zeroRect, zeroMinimapUpTo, List.range_succ, List.any_append,
    List.any_cons, List.any_nil, Bool.or_false, Bool.or_eq_true,
    decide_eq_true_eq]
  by_cases h1 : 215 ≤ r.1 <;>
    by_cases h2 : n * w ≤ x.1 ∧ x.1 < n * w + 80 <;>
    by_cases h3 : ((List.range n).any fun j =>
        decide (j * w ≤ x.1 ∧ x.1 < j * w + 80)) = true <;>
    simp [h1, h2, h3]

theorem minimap_foldl_range {H W : Nat} (hH : H = 270)
    (hW : 4 * (W / 5) + 80 ≤ W) (img : Img 3 H W) (n : Nat) (hn : n ≤ 5) :
    (List.range n).foldl (minimapStep (W / 5)) (img, true) =
      (zeroMinimapUpTo (W / 5) n img, true) := by
  induction n with
  | zero =>
    have : zeroMinimapUpTo (W / 5) 0 img = img := by
      funext c r x
      simp [zeroMinimapUpTo]
    simp [this]
  | succ n ih =>
    rw [List.range_succ, List.foldl_append, ih (by omega)]
    have hok : minimapAssignOk H W (n * (W / 5)) := by
      constructor
      · omega
      · have h1 : n * (W / 5) ≤ 4 * (W / 5) :=
          Nat.mul_le_mul_right _ (by omega)
        omega
    simp only [List.foldl_cons, List.foldl_nil, minimapStep, if_pos hok,
      if_true]
    rw [zeroRect_upTo_succ]

theorem minimapStep_true {H W : Nat} (w : Nat) (img : Img 3 H W) (j : Nat) :
    minimapStep w (img, true) j =
      if minimapAssignOk H W (j * w) then (zeroRect 215 (j * w) 80 img, true)
      else (img, false) := by
  simp [minimapStep]

theorem minimapStep_false {H W : Nat} (w : Nat) (img : Img 3 H W) (j : Nat) :
    minimapStep w (img, false) j = (img, false) := by
  simp [minimapStep]

/-- The five slice assignments all succeed exactly when the image height
is 270 and the last 80-column window, starting at column 4 * (W / 5),
fits inside the image width. -/
theorem minimapLoop_snd_iff {H W : Nat} (img : Img 3 H W) :
    (minimapLoop img).2 = true ↔ (H = 270 ∧ 4 * (W / 5) + 80 ≤ W) := by
  constructor
  · intro htrue
    rw [minimapLoop, show List.range 5 = [0, 1, 2, 3, 4] from rfl] at htrue
    simp only [List.foldl_cons, List.foldl_nil] at htrue
    by_cases h0 : minimapAssignOk H W (0 * (W / 5))
    · rw [minimapStep_true, if_pos h0] at htrue
      by_cases h1 : minimapAssignOk H W (1 * (W / 5))
      · rw [minimapStep_true, if_pos h1] at htrue
        by_cases h2 : minimapAssignOk H W (2 * (W / 5))
        · rw [minimapStep_true, if_pos h2] at htrue
          by_cases h3 : minimapAssignOk H W (3 * (W / 5))
          · rw [minimapStep_true, if_pos h3] at htrue
            by_cases h4 : minimapAssignOk H W (4 * (W / 5))
            · obtain ⟨ha, hb⟩ := h0
              obtain ⟨hc, hd⟩ := h4
              omega
            · rw [minimapStep_true, if_neg h4] at htrue
              exact absurd htrue (by simp)
          · rw [minimapStep_true, if_neg h3] at htrue
            simp only [minimapStep_false] at htrue
            exact absurd htrue (by simp)
        · rw [minimapStep_true, if_neg h2] at htrue
          simp only [minimapStep_false] at htrue
          exact absurd htrue (by simp)
      · rw [minimapStep_true, if_neg h1] at htrue
        simp only [minimapStep_false] at htrue
        exact absurd htrue (by simp)
    · rw [minimapStep_true, if_neg h0] at htrue
      simp only [minimapStep_false] at htrue
      exact absurd htrue (by simp)
  · rintro ⟨hH, hW⟩
    rw [minimapLoop, minimap_foldl_range hH hW img 5 le_rfl]

/-- C5.  With hide_map_prob = 0 RemoveMinimap never touches the image,
for every input and draw; with hide_map_prob = 1 and any draw in [0, 1]
it zeroes the full minimap region (rows 215 onward, the 80 columns at
each of the 5 one-fifth-width segment starts) in all 5 segments from the
single per-sample draw, provided the slice shapes match (height 270 and
the last window inside the width). -/
theorem removeMinimap_extremes (H W : Nat) (img : Img 3 H W) (y rnd : ℚ) :
    removeMinimapCall 0 rnd (img, y) = some (img, y) ∧
    (rnd ≤ 1 → H = 270 → 4 * (W / 5) + 80 ≤ W →
      removeMinimapCall 1 rnd (img, y) = some (zeroMinimapAll img, y)) := by
  constructor
  · simp [removeMinimapCall, removeMinimapRun]
  · intro hr hH hW
    have hloop : minimapLoop img = (zeroMinimapUpTo (W / 5) 5 img, true) :=
      minimap_foldl_range hH hW img 5 le_rfl
    have htrig : (0 : ℚ) < 1 ∧ rnd ≤ 1 := ⟨one_pos, hr⟩
    simp [removeMinimapCall, removeMinimapRun, hloop, htrig, zeroMinimapAll]

/-- Witness for C5 at a concrete valid input. -/
theorem removeMinimap_extremes_witness :
    ((1 : ℚ) / 2 ≤ 1 ∧ (270 : Nat) = 270 ∧ 4 * (400 / 5) + 80 ≤ 400) ∧
    removeMinimapCall 1 ((1 : ℚ) / 2) (exImg270, 0) =
      some (zeroMinimapAll exImg270, 0) :=
  ⟨⟨by norm_num, rfl, by norm_num⟩,
   (removeMinimap_extremes 270 400 exImg270 0 ((1 : ℚ) / 2)).2
     (by norm_num) rfl (by norm_num)⟩

/-- C9 (amended).  When the hide-map draw triggers, RemoveMinimap
succeeds exactly when the image height is 270 and the 80-column window
at the last segment start fits in the width (4 * (W / 5) + 80 ≤ W); in
particular any height other than 270 with a triggered draw is a shape
mismatch and the call fails instead of zeroing the region. -/
theorem removeMinimap_success_iff (H W : Nat) (img : Img 3 H W)
    (p rnd : ℚ) (htrig : 0 < p ∧ rnd ≤ p) :
    (removeMinimapRun p rnd img).isSome = true ↔
      (H = 270 ∧ 4 * (W / 5) + 80 ≤ W) := by
  rw [removeMinimapRun, if_pos htrig, ← minimapLoop_snd_iff img]
  cases h : (minimapLoop img).2 <;> simp [h]

/-- Witness for the amended C9 at a concrete triggered input. -/
theorem removeMinimap_success_iff_witness :
    ((0 : ℚ) < 1 ∧ (1 : ℚ) / 2 ≤ 1) ∧
    ((removeMinimapRun 1 ((1 : ℚ) / 2) exImg270).isSome = true ↔
      ((270 : Nat) = 270 ∧ 4 * (400 / 5) + 80 ≤ 400)) :=
  ⟨⟨one_pos, by norm_num⟩,
   removeMinimap_success_iff 270 400 exImg270 1 ((1 : ℚ) / 2)
     ⟨one_pos, by norm_num⟩⟩

/-- C9 counterexample: on a 3 x 270 x 399 image with a triggered draw
every slice assignment succeeds, yet the one-fifth-width segment is only
79 < 80 columns wide, refuting the necessity of 80-column segments. -/
theorem removeMinimap_width_counterexample :
    (removeMinimapRun 1 ((1 : ℚ) / 2) exImg399).isSome = true ∧
      399 / 5 < 80 := by
  constructor
  · have h2 : (minimapLoop exImg399).2 = true :=
      (minimapLoop_snd_iff exImg399).mpr ⟨rfl, by norm_num⟩
    rw [removeMinimapRun, if_pos ⟨one_pos, by norm_num⟩, if_pos h2]
    rfl
  · norm_num

theorem imageStep_true {C H W : Nat} (ps : List ℚ) (d : Nat → ℚ) (w : Nat)
    (img : Img C H W) (j : Nat) :
    imageStep ps d w (img, true) j =
      match ps[j]? with
      | none => (img, false)
      | some p =>
          if 0 < p ∧ d j ≤ p then (zeroRect 0 (j * w) w img, true)
          else (img, true) := by
  simp [imageStep]

theorem zeroDropped_succ_trig {C H W : Nat} (ps : List ℚ) (d : Nat → ℚ)
    (w n : Nat) (img : Img C H W) (htr : dropTrig ps d n) :
    zeroRect 0 (n * w) w (zeroDroppedUpTo ps d w n img) =
      zeroDroppedUpTo ps d w (n + 1) img := by
  funext c r x
  simp only [zeroRect, zeroDroppedUpTo, List.range_succ, List.any_append,
    List.any_cons, List.any_nil, Bool.or_false, Bool.or_eq_true,
    decide_eq_true_eq]
  by_cases h2 : n * w ≤ x.1 ∧ x.1 < n * w + w <;>
    by_cases h3 : ((List.range n).any fun j =>
        decide (dropTrig ps d j ∧ j * w ≤ x.1 ∧ x.1 < j * w + w)) = true <;>
    simp [h2, h3, htr, Nat.zero_le]

theorem zeroDropped_succ_skip {C H W : Nat} (ps : List ℚ) (d : Nat → ℚ)
    (w n : Nat) (img : Img C H W) (htr : ¬dropTrig ps d n) :
    zeroDroppedUpTo ps d w n img = zeroDroppedUpTo ps d w (n + 1) img := by
  funext c r x
  simp only [zeroDroppedUpTo, List.range_succ, List.any_append,
    List.any_cons, List.any_nil, Bool.or_false, Bool.or_eq_true,
    decide_eq_true_eq]
  simp [htr]

theorem image_foldl_range {C H W : Nat} (ps : List ℚ) (d : Nat → ℚ)
    (hlen : ps.length = 5) (img : Img C H W) (n : Nat) (hn : n ≤ 5) :
    (List.range n).foldl (imageStep ps d (W / 5)) (img, true) =
      (zeroDroppedUpTo ps d (W / 5) n img, true) := by
  induction n with
  | zero =>
    have h0 : zeroDroppedUpTo ps d (W / 5) 0 img = img := by
      funext c r x
      simp [zeroDroppedUpTo]
    simp [h0]
  | succ n ih =>
    rw [List.range_succ, List.foldl_append, ih (by omega)]
    have hn5 : n < ps.length := by omega
    have hsome : ps[n]? = some (ps.getD n 0) := by
      rw [List.getElem?_eq_getElem hn5, List.getD_eq_getElem ps 0 hn5]
    simp only [List.foldl_cons, List.foldl_nil, imageStep_true, hsome]
    by_cases htr : dropTrig ps d n
    · rw [if_pos ⟨htr.1, htr.2⟩, zeroDropped_succ_trig ps d (W / 5) n img htr]
    · rw [if_neg (by exact htr), zeroDropped_succ_skip ps d (W / 5) n img htr]

/-- C6.  RemoveImage on a length-5 probability vector: the output image
zeroes exactly the width segments of the triggered slots, each slot j
decided by its own draw d j, all other columns unchanged; with the
all-zero vector no pixel is ever altered, for every draw. -/
theorem removeImage_spec (Ch H W : Nat) (img : Img Ch H W) (y : ℚ)
    (ps : List ℚ) (d : Nat → ℚ) (hlen : ps.length = 5) :
    removeImageCall (some ps) d (img, y) = some (zeroDropped ps d img, y) ∧
    (ps = List.replicate 5 0 →
      removeImageCall (some ps) d (img, y) = some (img, y)) := by
  have hloop : imageLoop ps d img = (zeroDropped ps d img, true) :=
    image_foldl_range ps d hlen img 5 le_rfl
  constructor
  · simp [removeImageCall, removeImageRun, hloop]
  · intro hz
    have hzd : zeroDropped ps d img = img := by
      subst hz
      funext c r x
      simp only [zeroDropped, zeroDroppedUpTo, dropTrig, List.replicate]
      rw [if_neg]
      simp only [List.any_eq_true, decide_eq_true_eq, not_exists, not_and]
      intro j hj htr
      rcases j with _ | _ | _ | _ | _ | j <;> simp_all
      omega
    simp [removeImageCall, removeImageRun, hloop, hzd]

/-- Witness for C6 at a concrete input. -/
theorem removeImage_spec_witness :
    (([(1 : ℚ) / 2, 0, 0, 0, 0] : List ℚ).length = 5) ∧
    removeImageCall (some [(1 : ℚ) / 2, 0, 0, 0, 0]) (fun _ => (1 : ℚ) / 4)
        (exImgSmall, 0) =
      some (zeroDropped [(1 : ℚ) / 2, 0, 0, 0, 0] (fun _ => (1 : ℚ) / 4)
        exImgSmall, 0) :=
  ⟨rfl,
   (removeImage_spec 1 1 5 exImgSmall 0 [(1 : ℚ) / 2, 0, 0, 0, 0]
     (fun _ => (1 : ℚ) / 4) rfl).1⟩

/-- C4 counterexample: with probabilities 1/2 and all draws 1/4 every
slot triggers, and after the RemoveImage call the caller's 1 x 1 x 5
tensor of ones no longer equals the tensor that was passed in — the
slice assignments mutated it in place. -/
theorem removeImage_inplace_counterexample :
    removeImageAfter (some [(1 : ℚ) / 2, 1 / 2, 1 / 2, 1 / 2, 1 / 2])
        (fun _ => (1 : ℚ) / 4) exImgSmall ≠ exImgSmall := by
  intro h
  have hloop := image_foldl_range [(1 : ℚ) / 2, 1 / 2, 1 / 2, 1 / 2, 1 / 2]
    (fun _ => (1 : ℚ) / 4) rfl exImgSmall 5 le_rfl
  have h0 := congrFun (congrFun (congrFun h 0) 0) 0
  simp only [removeImageAfter] at h0
  rw [show imageLoop [(1 : ℚ) / 2, 1 / 2, 1 / 2, 1 / 2, 1 / 2]
        (fun _ => (1 : ℚ) / 4) exImgSmall =
      (zeroDropped [(1 : ℚ) / 2, 1 / 2, 1 / 2, 1 / 2, 1 / 2]
        (fun _ => (1 : ℚ) / 4) exImgSmall, true) from hloop] at h0
  simp only [zeroDropped, zeroDroppedUpTo, exImgSmall] at h0
  rw [if_pos] at h0
  · exact absurd h0 (by norm_num)
  · refine List.any_eq_true.mpr ⟨0, by simp, ?_⟩
    simp only [decide_eq_true_eq]
    refine ⟨⟨?_, ?_⟩, ?_, ?_⟩ <;> norm_num [dropTrig, List.getD_cons_zero]

/-- C4 (amended).  SequenceColorJitter is pure: the caller's tensor
after the call is the input, and the result is the jittered copy.
RemoveMinimap and RemoveImage are not pure: they write through the
argument, so whenever they return an image it is exactly the content of
the caller's tensor after the call (the passed tensor is mutated, as the
counterexample shows). -/
theorem augmentation_aliasing (H W : Nat) :
    (∀ (jitter : (Fin 5 → Img 3 H W) → Fin 5 → Img 3 H W)
        (s : (Fin 5 → Img 3 H W) × ℚ),
        sequenceColorJitterAfter jitter s = s.1 ∧
        sequenceColorJitterCall jitter s = (jitter s.1, s.2)) ∧
    (∀ (p rnd : ℚ) (img im' : Img 3 H W),
        removeMinimapRun p rnd img = some im' →
          removeMinimapAfter p rnd img = im') ∧
    (∀ (probs : Option (List ℚ)) (d : Nat → ℚ) (img im' : Img 3 H W),
        removeImageRun probs d img = some im' →
          removeImageAfter probs d img = im') := by
  refine ⟨fun jitter s => ⟨rfl, rfl⟩, ?_, ?_⟩
  · intro p rnd img im' hrun
    rw [removeMinimapRun] at hrun
    rw [removeMinimapAfter]
    by_cases htrig : 0 < p ∧ rnd ≤ p
    · rw [if_pos htrig] at hrun
      rw [if_pos htrig]
      by_cases hok : (minimapLoop img).2 = true
      · rw [if_pos hok] at hrun
        exact Option.some.inj hrun
      · rw [if_neg hok] at hrun
        exact absurd hrun (by simp)
    · rw [if_neg htrig] at hrun
      rw [if_neg htrig]
      exact Option.some.inj hrun
  · intro probs d img im' hrun
    match probs with
    | none => exact absurd hrun (by simp [removeImageRun])
    | some ps =>
      rw [removeImageRun] at hrun
      rw [removeImageAfter]
      by_cases hok : (imageLoop ps d img).2 = true
      · rw [if_pos hok] at hrun
        exact Option.some.inj hrun
      · rw [if_neg hok] at hrun
        exact absurd hrun (by simp)

/-- Witness for the amended C4 at a concrete input. -/
theorem augmentation_aliasing_witness :
    removeMinimapRun 0 0 exImg270 = some exImg270 ∧
    removeMinimapAfter 0 0 exImg270 = exImg270 :=
  ⟨by simp [removeMinimapRun],
   (augmentation_aliasing 270 400).2.1 0 0 exImg270 exImg270
     (by simp [removeMinimapRun])⟩

/-- C7.  Normalize maps every frame of the stack identically and
deterministically: pixel v of channel c becomes
(v / 255 - channelMean c) / channelStd c, the label is unchanged, and
Normalize is not idempotent: on some stack applying it twice differs
from applying it once. -/
theorem normalize_spec :
    (∀ (H W : Nat) (s : (Fin 5 → Img 3 H W) × ℚ) (i : Fin 5) (c : Fin 3)
        (r : Fin H) (x : Fin W),
        (normalizeCall s).1 i c r x =
          (s.1 i c r x / 255 - channelMean c) / channelStd c ∧
        (normalizeCall s).2 = s.2) ∧
    ∃ s : (Fin 5 → Img 3 1 1) × ℚ,
        normalizeCall (normalizeCall s) ≠ normalizeCall s := by
  constructor
  · intro H W s i c r x
    exact ⟨rfl, rfl⟩
  · refine ⟨(fun _ _ _ _ => 0, 0), fun h => ?_⟩
    have h0 := congrFun (congrFun (congrFun (congrFun (congrArg Prod.fst h)
      ⟨0, by norm_num⟩) ⟨0, by norm_num⟩) ⟨0, by norm_num⟩) ⟨0, by norm_num⟩
    norm_num [normalizeCall, normalizeFrame, channelMean, channelStd] at h0

/-- C8.  For a batch of N samples whose stacks each hold 5 frames,
collate_fn concatenates the stacks in order with leading dimension 5 * N,
concatenates the masks identically, stacks the labels with leading
dimension N, and switches gradient tracking off on attention_mask and
y. -/
theorem collate_fn_spec {F M L : Type}
    (batch : List (MTensor F × MTensor M × MTensor L))
    (h5 : ∀ b ∈ batch, b.1.data.length = 5) :
    (collate_fn batch).images.data = (batch.map fun b => b.1.data).flatten ∧
    (collate_fn batch).images.data.length = 5 * batch.length ∧
    (collate_fn batch).attention_mask.data =
      (batch.map fun b => b.2.1.data).flatten ∧
    (collate_fn batch).y.data.length = batch.length ∧
    (collate_fn batch).attention_mask.requiresGrad = false ∧
    (collate_fn batch).y.requiresGrad = false := by
  refine ⟨rfl, ?_, rfl, by simp [collate_fn], rfl, rfl⟩
  show ((batch.map fun b => b.1.data).flatten).length = 5 * batch.length
  rw [List.length_flatten, List.map_map]
  have hmap : batch.map (List.length ∘ fun b => b.1.data) =
      batch.map fun _ => 5 :=
    List.map_congr_left fun b hb => h5 b hb
  rw [hmap, List.map_const', List.sum_replicate, smul_eq_mul, Nat.mul_comm]

/-- Witness for C8 at a concrete one-sample batch. -/
theorem collate_fn_spec_witness :
    (∀ b ∈ exBatch, b.1.data.length = 5) ∧
    ((collate_fn exBatch).images.data =
        (exBatch.map fun b => b.1.data).flatten ∧
      (collate_fn exBatch).images.data.length = 5 * exBatch.length ∧
      (collate_fn exBatch).attention_mask.data =
        (exBatch.map fun b => b.2.1.data).flatten ∧
      (collate_fn exBatch).y.data.length = exBatch.length ∧
      (collate_fn exBatch).attention_mask.requiresGrad = false ∧
      (collate_fn exBatch).y.requiresGrad = false) :=
  ⟨by decide, collate_fn_spec exBatch (by decide)⟩

/-- C2.  Construction fails (a constructor assert raises, before any
sample is produced and with no clamping) exactly when the lower-cased
control mode is neither keyboard nor controller, or hide_map_prob is
outside [0, 1], or the dropout vector stored after defaulting has length
other than 5, or one of its entries is outside [0, 1), or
token_mask_prob is outside [0, 1). -/
theorem teddInit_none_iff (hideMapProb tokenMaskProb : ℚ)
    (nheads : Option Nat) (rawDropout : Option (List ℚ)) (seqLen : Nat)
    (controlMode : String) (train : Bool) :
    teddInit hideMapProb tokenMaskProb nheads rawDropout seqLen controlMode
        train = none ↔
      (¬(pyLower controlMode = "keyboard" ∨
          pyLower controlMode = "controller") ∨
        ¬(0 ≤ hideMapProb ∧ hideMapProb ≤ 1) ∨
        (effectiveDropout rawDropout seqLen).length ≠ 5 ∨
        (∃ p ∈ effectiveDropout rawDropout seqLen, ¬(0 ≤ p ∧ p < 1)) ∨
        ¬(0 ≤ tokenMaskProb ∧ tokenMaskProb < 1)) := by
  rw [teddInit]
  split_ifs with h
  · constructor
    · intro hc
      exact absurd hc (by simp)
    · intro hd
      obtain ⟨h1, h2, h3, h4, h5⟩ := h
      rcases hd with hd | hd | hd | hd | hd
      · exact hd h1
      · exact hd h2
      · exact hd h3
      · obtain ⟨p, hp, hbad⟩ := hd
        exact hbad (h4 p hp)
      · exact hd h5
  · refine iff_of_true rfl ?_
    by_contra hd
    push_neg at hd
    exact h ⟨hd.1, hd.2.1, hd.2.2.1, hd.2.2.2.1, hd.2.2.2.2⟩

/-- A fetched image always comes from an actual successful read of the
returned name. -/
theorem fetchImage_read {H W : Nat} (files : List String)
    (read : String → Option (Img 3 H W)) (nm : String) (im : Img 3 H W)
    (start : String) (draws : List ℚ)
    (h : fetchImage files read start draws = some (nm, im)) :
    read nm = some im := by
  induction draws generalizing start with
  | nil =>
    rw [fetchImage] at h
    cases hr : read start with
    | none => rw [hr] at h; simp at h
    | some im0 =>
      rw [hr] at h
      simp only [Option.map_some'] at h
      have h2 := Option.some.inj h
      have hnm : start = nm := congrArg Prod.fst h2
      have him : im0 = im := congrArg Prod.snd h2
      rw [← hnm, hr, him]
  | cons d ds ih =>
    rw [fetchImage] at h
    cases hr : read start with
    | none =>
      rw [hr] at h
      exact ih _ h
    | some im0 =>
      rw [hr] at h
      have h2 := Option.some.inj h
      have hnm : start = nm := congrArg Prod.fst h2
      have him : im0 = im := congrArg Prod.snd h2
      rw [← hnm, hr, him]

/-- C3.  A failed read never propagates: with a fallback draw d
available the loop retries with the file at the random index computed
from d; a returned sample always comes from a successful read of the
returned name; and when the loop returns (nm, im), __getitem__ builds
the frames from im and decodes the label from nm in the configured
control mode, so the returned label always matches the returned
frames. -/
theorem getItem_retry_spec {H W : Nat} (cfg : TeddConfig)
    (files : List String) (read : String → Option (Img 3 H W))
    (decode : String → String → ℚ)
    (jitter : (Fin 5 → Img 3 H (W / 5)) → Fin 5 → Img 3 H (W / 5))
    (rMap : ℚ) (dDrop dMask : Nat → ℚ) (idx : Nat) (nm : String)
    (im : Img 3 H W) (d : ℚ) (ds draws : List ℚ) :
    (read (files.getD idx "") = none →
      fetchImage files read (files.getD idx "") (d :: ds) =
        fetchImage files read
          (files.getD (fallbackIndex files.length d) "") ds) ∧
    (fetchImage files read (files.getD idx "") draws = some (nm, im) →
      read nm = some im) ∧
    (fetchImage files read (files.getD idx "") draws = some (nm, im) →
      getItem cfg files read decode jitter rMap dDrop dMask idx draws =
        (applyTransform cfg jitter rMap dDrop im
            (decode nm cfg.controlMode)).map fun st =>
          (st.1,
           get_mask cfg.train cfg.nheads cfg.tokenMaskProb cfg.seqLen dMask,
           st.2)) := by
  refine ⟨?_, fetchImage_read files read nm im _ draws, ?_⟩
  · intro hread
    rw [fetchImage, hread]
  · intro hfetch
    simp only [getItem]
    rw [hfetch]
    rfl

/-- Witness for C3: reading the first file fails, the fallback draw 1/2
lands on index 1, and the loop returns the second file, whose name the
label is decoded from. -/
theorem getItem_retry_spec_witness :
    exRead (exFiles.getD 0 "") = none ∧
    fetchImage exFiles exRead (exFiles.getD 0 "") [(1 : ℚ) / 2] =
      some ("good.jpeg", exImg00) ∧
    exRead "good.jpeg" = some exImg00 ∧
    getItem exCfg exFiles exRead (fun _ _ => 0) id 0 (fun _ => 0)
        (fun _ => 0) 0 [(1 : ℚ) / 2] =
      (applyTransform exCfg id 0 (fun _ => 0) exImg00
          ((fun _ _ => (0 : ℚ)) "good.jpeg" exCfg.controlMode)).map fun st =>
        (st.1,
         get_mask exCfg.train exCfg.nheads exCfg.tokenMaskProb exCfg.seqLen
           (fun _ => 0),
         st.2) := by
  have hread : exRead (exFiles.getD 0 "") = none := by
    simp [exRead, exFiles]
  have hfetch : fetchImage exFiles exRead (exFiles.getD 0 "")
      [(1 : ℚ) / 2] = some ("good.jpeg", exImg00) := by
    show fetchImage exFiles exRead "bad.jpeg" [(1 : ℚ) / 2] = _
    rw [fetchImage, show exRead "bad.jpeg" = none from by simp [exRead]]
    show fetchImage exFiles exRead
      (exFiles.getD (fallbackIndex exFiles.length ((1 : ℚ) / 2)) "") [] = _
    rw [show fallbackIndex exFiles.length ((1 : ℚ) / 2) = 1 from by
      norm_num [fallbackIndex, exFiles]]
    show (exRead "good.jpeg").map _ = _
    rw [show exRead "good.jpeg" = some exImg00 from by simp [exRead]]
    rfl
  have hthm := getItem_retry_spec exCfg exFiles exRead (fun _ _ => 0) id 0
    (fun _ => 0) (fun _ => 0) 0 "good.jpeg" exImg00 ((1 : ℚ) / 2) []
    [(1 : ℚ) / 2]
  exact ⟨hread, hfetch, hthm.2.1 hfetch, hthm.2.2 hfetch⟩

/-- C10.  With train = True, dropout_images_prob = None and the default
sequence_length 5, construction passes the eager validation whenever the
other arguments do (the stored vector defaults to five zeros while the
training transform captured the raw None), and then every __getitem__
call fails: whatever image is fetched, the RemoveImage stage indexes
None. -/
theorem teddInit_none_dropout (hideMapProb tokenMaskProb : ℚ)
    (nheads : Option Nat) (controlMode : String) (cfg : TeddConfig)
    (hinit : teddInit hideMapProb tokenMaskProb nheads none 5 controlMode
        true = some cfg) :
    cfg.storedDropout = List.replicate 5 0 ∧ cfg.rawDropout = none ∧
    cfg.train = true ∧
    ∀ (H W : Nat) (files : List String)
      (read : String → Option (Img 3 H W)) (decode : String → String → ℚ)
      (jitter : (Fin 5 → Img 3 H (W / 5)) → Fin 5 → Img 3 H (W / 5))
      (rMap : ℚ) (dDrop dMask : Nat → ℚ) (idx : Nat) (draws : List ℚ),
      getItem cfg files read decode jitter rMap dDrop dMask idx draws =
        none := by
  rw [teddInit] at hinit
  split_ifs at hinit with h
  · have hc := Option.some.inj hinit
    subst hc
    refine ⟨rfl, rfl, rfl, ?_⟩
    intro H W files read decode jitter rMap dDrop dMask idx draws
    simp only [getItem]
    cases hf : fetchImage files read (files.getD idx "") draws with
    | none => rfl
    | some nmim =>
      cases hrun : removeMinimapRun hideMapProb rMap nmim.2 with
      | none => simp [applyTransform, hrun]
      | some im1 => simp [applyTransform, hrun, removeImageRun]

/-- Witness for C10: the concrete construction succeeds and a concrete
__getitem__ call fails. -/
theorem teddInit_none_dropout_witness :
    teddInit 0 0 none none 5 "keyboard" true = some exCfgTrain ∧
    getItem exCfgTrain exFiles
      (fun _ => some exImg00) (fun _ _ => 0) id 0 (fun _ => 0)
      (fun _ => 0) 1 [] = none := by
  have hinit : teddInit 0 0 none none 5 "keyboard" true =
      some exCfgTrain := by decide
  exact ⟨hinit,
    (teddInit_none_dropout 0 0 none "keyboard" exCfgTrain hinit).2.2.2 0 0
      exFiles (fun _ => some exImg00) (fun _ _ => 0) id 0 (fun _ => 0)
      (fun _ => 0) 1 []⟩
